import Mathlib

/-!
Verification of the reaper-client-go cluster client.

The Go source (package `reaper`) is shallowly embedded below.  Pure data
transformation (`newCluster`) becomes a pure Lean function over the raw
status payload; the HTTP layer is embedded by passing the outcome of each
external call (the transport result, the JSON-decode result, the state of
the cancellation context) as explicit parameters; Go's `(T, error)`
multiple returns become pairs of options or `Except`; Go maps become
association lists (key-unique by construction in the payloads considered).
The concurrent fan-out of `Client.GetClusters` is embedded as a small-step
transition system over the joint state of the per-name goroutines, the
buffered result channel and the consumer.
-/

/-! ## Errors

Go `error` values produced by this client: transport failures from
`http.Client.Do`, context cancellation errors (`ctx.Err()`), JSON decode
failures, `http.NewRequest` failures, and wrapped errors built with
`fmt.Errorf("...: %w", err)`. -/

inductive GoError where
  | transport (msg : String)
  | ctxCanceled (msg : String)
  | decode (msg : String)
  | newRequest (msg : String)
  | wrap (context : String) (cause : GoError)
deriving DecidableEq, Repr

/-- Whether an error is a `fmt.Errorf("...: %w", cause)` wrapping that adds
operation context around a lower-level cause. -/
def GoError.isWrapped : GoError → Bool
  | .wrap _ _ => true
  | _ => false

/-! ## Data model (src/reaper/types.go) -/

structure EndpointState where
  endpoint : String
  dataCenter : String
  rack : String
  hostId : String
  status : String
  severity : Float
  releaseVersion : String
  tokens : String
  load : Float

/-- Go `RackState`: name plus ordered endpoint slice.  -/
structure RackState where
  name : String
  endpoints : List EndpointState

/-- Go `DataCenterState`: `Racks` is `map[string]RackState`, embedded as an
association list from rack name to `RackState`. -/
structure DataCenterState where
  name : String
  racks : List (String × RackState)

/-- Go `GossipState`: `DataCenters` is `map[string]DataCenterState`,
embedded as an association list. -/
structure GossipState where
  sourceNode : String
  endpointNames : List String
  totalLoad : Float
  dataCenters : List (String × DataCenterState)

structure NodeState where
  gossipStates : List GossipState

structure Cluster where
  name : String
  jmxUsername : String
  jmxPasswordSet : Bool
  seeds : List String
  nodeState : NodeState

/-- Go `GetClusterResult`: a struct of two nilable fields, `Cluster *Cluster`
and `Error error`. -/
structure GetClusterResult where
  cluster : Option Cluster
  error : Option GoError

/-! ## Raw wire payload (internal types of types.go) -/

structure endpointStatus where
  endpoint : String
  dataCenter : String
  rack : String
  hostId : String
  status : String
  severity : Float
  releaseVersion : String
  tokens : String
  load : Float

/-- Go `gossipStatus`: `Endpoints` is
`map[string]map[string][]endpointStatus` (datacenter → rack → endpoint
slice), embedded as nested association lists. -/
structure gossipStatus where
  sourceNode : String
  endpointNames : List String
  totalLoad : Float
  endpoints : List (String × List (String × List endpointStatus))

structure nodeStatus where
  endpointStates : List gossipStatus

structure clusterStatus where
  name : String
  jmxUsername : String
  jmxPasswordSet : Bool
  seeds : List String
  nodeStatus : nodeStatus

/-! ## Topology translator (`newCluster`, part_000 lines 210-252) -/

/-- The per-endpoint field copy performed in the innermost loop of
`newCluster` (lines 230-243). -/
def newEndpointState (ep : endpointStatus) : EndpointState :=
  { endpoint := ep.endpoint
    dataCenter := ep.dataCenter
    rack := ep.rack
    hostId := ep.hostId
    status := ep.status
    severity := ep.severity
    releaseVersion := ep.releaseVersion
    tokens := ep.tokens
    load := ep.load }

/-- Embeds Go `newCluster`: one `GossipState` per entry of
`state.NodeStatus.EndpointStates` (appended in slice order), one
`DataCenterState` per datacenter key, one `RackState` per rack key, with the
rack's endpoints translated in slice order.  The Go loops that populate the
result maps become maps over the association lists. -/
def newCluster (state : clusterStatus) : Cluster :=
  { name := state.name
    jmxUsername := state.jmxUsername
    jmxPasswordSet := state.jmxPasswordSet
    seeds := state.seeds
    nodeState :=
      { gossipStates := state.nodeStatus.endpointStates.map fun gs =>
          { sourceNode := gs.sourceNode
            endpointNames := gs.endpointNames
            totalLoad := gs.totalLoad
            dataCenters := gs.endpoints.map fun dcEntry =>
              (dcEntry.1,
                { name := dcEntry.1
                  racks := dcEntry.2.map fun rackEntry =>
                    (rackEntry.1,
                      { name := rackEntry.1
                        endpoints := rackEntry.2.map newEndpointState }) }) } } }

/-! ## Transport adapter (`Client.do`, part_000 lines 188-208)

External effects are passed in explicitly: `Context` is the observable
state of the Go `context.Context` at the moment `Client.do` inspects it
(`doneFired` is whether `<-ctx.Done()` is ready, `err` is what `ctx.Err()`
would return); `httpResult` is what `c.httpClient.Do(req)` returned; the
decode parameter is what `json.NewDecoder(resp.Body).Decode(v)` would
produce for the response body, or `none` when the Go caller passed `v = nil`
(no decode is attempted). -/

structure Context where
  doneFired : Bool
  err : GoError

structure HttpResponse where
  body : String

/-- Embeds `Client.do`.  On a `httpClient.Do` failure the
`select ctx.Done / default` returns `ctx.Err()` exactly when the context's
done channel is ready, else the transport error (lines 193-200); on success
the body is decoded when a target was supplied (lines 203-205).  Go's
`(resp, err)` pair is collapsed to `Except` since every caller only branches
on `err`. -/
def clientDo {α : Type} (ctx : Context) (httpResult : Except GoError HttpResponse)
    (decode : Option (Except GoError α)) : Except GoError (HttpResponse × Option α) :=
  match httpResult with
  | .error e => .error (if ctx.doneFired then ctx.err else e)
  | .ok resp =>
    match decode with
    | none => .ok (resp, none)
    | some (.ok v) => .ok (resp, some v)
    | some (.error e) => .error e

/-! ## Single-resource operations (part_000 lines 51-91, 140-186) -/

/-- Embeds `Client.GetClusterNames` (lines 51-69).  `reqErr` is the outcome
of `http.NewRequest` (returned unwrapped when it fails, line 56); a failure
of `Client.do` is wrapped as "failed to get cluster names" (line 65).  When
`Client.do` succeeds without having run the decode, the initial value
`[]string{}` of `clusterNames` is returned. -/
def GetClusterNames (ctx : Context) (reqErr : Option GoError)
    (httpResult : Except GoError HttpResponse)
    (decodeNames : Except GoError (List String)) : Except GoError (List String) :=
  match reqErr with
  | some e => .error e
  | none =>
    match clientDo ctx httpResult (some decodeNames) with
    | .error e => .error (.wrap "failed to get cluster names" e)
    | .ok (_, some names) => .ok names
    | .ok (_, none) => .ok []

/-- External outcomes consumed by one `Client.GetCluster` call. -/
structure GetClusterEnv where
  reqErr : Option GoError
  httpResult : Except GoError HttpResponse
  decodeStatus : Except GoError clusterStatus

/-- The zero value of Go `clusterStatus{}`, which `clusterState` keeps when
the decode never runs. -/
def emptyClusterStatus : clusterStatus :=
  { name := "", jmxUsername := "", jmxPasswordSet := false, seeds := []
    nodeStatus := { endpointStates := [] } }

/-- Embeds `Client.GetCluster` (lines 71-91), returning the Go
`(*Cluster, error)` pair as `Option Cluster × Option GoError`.  A
`http.NewRequest` failure is returned unwrapped (line 76); a `Client.do`
failure is wrapped as "failed to get cluster (name)" (line 83); on success
the decoded payload goes through `newCluster` and the pointer returned is
never nil (line 86-90). -/
def GetCluster (ctx : Context) (name : String) (env : GetClusterEnv) :
    Option Cluster × Option GoError :=
  match env.reqErr with
  | some e => (none, some e)
  | none =>
    match clientDo ctx env.httpResult (some env.decodeStatus) with
    | .error e => (none, some (.wrap ("failed to get cluster (" ++ name ++ ")") e))
    | .ok (_, some st) => (some (newCluster st), none)
    | .ok (_, none) => (some (newCluster emptyClusterStatus), none)

/-- The HTTP request visible to the server, as built by `Client.AddCluster`
(lines 141-152). -/
structure Request where
  method : String
  path : String
  query : List (String × String)
  headers : List (String × String)

/-- The PUT request `Client.AddCluster` builds for a cluster and seed: no
validation is applied to either string before `q.Add("seedHost", seed)`. -/
def addClusterRequest (cluster seed : String) : Request :=
  { method := "PUT"
    path := "/cluster/" ++ cluster
    query := [("seedHost", seed)]
    headers := [("Accept", "application/json")] }

/-- Embeds `Client.AddCluster` (lines 140-167).  Returns the request it
issued (none when `http.NewRequest` failed, line 146) together with the Go
`error` result.  Unlike the other operations it calls `httpClient.Do`
directly and returns the failure unwrapped, after the same
cancellation-priority `select` as `Client.do` (lines 154-162). -/
def AddCluster (ctx : Context) (cluster seed : String) (reqErr : Option GoError)
    (httpResult : Except GoError HttpResponse) : Option Request × Option GoError :=
  match reqErr with
  | some e => (none, some e)
  | none =>
    (some (addClusterRequest cluster seed),
      match httpResult with
      | .error e => some (if ctx.doneFired then ctx.err else e)
      | .ok _ => none)

/-- Embeds `Client.DeleteCluster` (lines 169-186).  The decode target passed
to `Client.do` is nil; a `Client.do` failure is wrapped as
"failed to delete cluster (name)" (line 182). -/
def DeleteCluster (ctx : Context) (cluster : String) (reqErr : Option GoError)
    (httpResult : Except GoError HttpResponse) : Option GoError :=
  match reqErr with
  | some e => some e
  | none =>
    match clientDo (α := Unit) ctx httpResult none with
    | .error e => some (.wrap ("failed to delete cluster (" ++ cluster ++ ")") e)
    | .ok _ => none

/-! ## Concurrent fan-out (`Client.GetClusters`, part_000 lines 95-123)

The call is embedded as a small-step transition system over the joint state
of the per-name fetch goroutines, the buffered result channel and the
consumer.  The code launches one goroutine per cluster name with no gating
(lines 110-118): goroutine creation is never blocked, so a `start` step is
always enabled for a not-yet-started name.  Each goroutine performs its
fetch and only then sends on the channel (lines 114-116), so the send is
gated on channel capacity but the fetch itself is not.  The orchestrating
goroutine closes the channel after `wg.Wait()` returns, i.e. once every
fetch goroutine has sent its result and run its deferred `wg.Done()`
(lines 108-120).  A buffered Go channel still delivers buffered elements
after `close`, so `recv` is enabled whenever the buffer is non-empty. -/

/-- Lifecycle of one per-name fetch goroutine: not yet spawned; spawned and
executing `c.GetCluster` (in-flight); fetch finished, blocked on or about to
perform `results <- result`; result sent and `wg.Done()` run. -/
inductive FetchPhase where
  | notStarted
  | fetching
  | sending
  | done
deriving DecidableEq, Repr

/-- Joint state of one `GetClusters` call: `phases` has one entry per
cluster name, `buffer` counts results sitting in the channel, `consumed`
counts results the consumer has received, `closed` is whether `close(results)`
has run. -/
structure AggState where
  phases : List FetchPhase
  buffer : Nat
  consumed : Nat
  closed : Bool
deriving DecidableEq, Repr

/-- Concurrency width computed at line 97:
`int(math.Min(5, float64(runtime.NumCPU())))`.  The float detour is exact
for any realistic CPU count, so it is `min 5 numCPU`. -/
def concurrencyWidth (numCPU : Nat) : Nat := min 5 numCPU

/-- Schedulable actions of the transition system. -/
inductive Step where
  | start (i : Nat)
  | finishFetch (i : Nat)
  | send (i : Nat)
  | recv
  | close
deriving DecidableEq, Repr

/-- One scheduler step; `none` when the action is not enabled.  `cap` is the
channel buffer capacity (`concurrency` at line 98).  `start` is enabled for
any not-yet-started name regardless of how many fetches are in flight,
because the code spawns all goroutines eagerly; `send` requires buffer
space; `close` requires every goroutine to have finished (`wg.Wait()`). -/
def applyStep (cap : Nat) (s : AggState) : Step → Option AggState
  | .start i =>
    match s.phases[i]? with
    | some .notStarted => some { s with phases := s.phases.set i .fetching }
    | _ => none
  | .finishFetch i =>
    match s.phases[i]? with
    | some .fetching => some { s with phases := s.phases.set i .sending }
    | _ => none
  | .send i =>
    match s.phases[i]? with
    | some .sending =>
      if s.buffer < cap then
        some { s with phases := s.phases.set i .done, buffer := s.buffer + 1 }
      else none
    | _ => none
  | .recv =>
    if 0 < s.buffer then
      some { s with buffer := s.buffer - 1, consumed := s.consumed + 1 }
    else none
  | .close =>
    if s.closed then none
    else if s.phases.all (· == .done) then some { s with closed := true }
    else none

/-- Initial state of a `GetClusters` call, from the outcome of the
`GetClusterNames` step (lines 100-104): on failure the channel is closed at
once with no fetch launched; on success one not-yet-started fetch per
name. -/
def initStateOf (namesResult : Except GoError (List String)) : AggState :=
  match namesResult with
  | .error _ => { phases := [], buffer := 0, consumed := 0, closed := true }
  | .ok names =>
    { phases := List.replicate names.length .notStarted
      buffer := 0, consumed := 0, closed := false }

/-- Runs a list of scheduler steps; `none` if any step is not enabled. -/
def run (cap : Nat) : List Step → AggState → Option AggState
  | [], s => some s
  | st :: rest, s => (applyStep cap s st).bind (run cap rest)

/-- Number of fetches simultaneously in flight (goroutines currently
executing `c.GetCluster`). -/
def countInFlight (s : AggState) : Nat :=
  s.phases.countP (· == FetchPhase.fetching)

/-- Number of fetches whose result has been sent on the channel. -/
def countDone (l : List FetchPhase) : Nat :=
  l.countP (· == FetchPhase.done)

/-! ## Synchronous fan-out (`Client.GetClustersSync`, part_000 lines 127-138)

The consumer-side loop is embedded over the list of `GetClusterResult`
elements it receives from the channel, in the completion order the stream
happened to produce. -/

/-- The `for result := range` loop with the `clusters` accumulator: the
first result carrying a non-nil error makes the function return
`(nil, result.Error)` at once (lines 131-133); otherwise `result.Cluster`
is appended (line 134). -/
def syncLoop : List GetClusterResult → List (Option Cluster) →
    Except GoError (List (Option Cluster))
  | [], clusters => .ok clusters
  | r :: rest, clusters =>
    match r.error with
    | some e => .error e
    | none => syncLoop rest (clusters ++ [r.cluster])

/-- Embeds `Client.GetClustersSync` as a function of the stream it
consumes. -/
def GetClustersSync (stream : List GetClusterResult) :
    Except GoError (List (Option Cluster)) :=
  syncLoop stream []

/-- The list of results a `GetClusters` stream delivers, as a function of
the `GetClusterNames` outcome and the per-name fetch results: on a listing
failure the stream is closed empty (lines 101-104); otherwise one result
per name (delivery order is scheduler-dependent; the properties proved
below do not depend on the order chosen here). -/
def getClustersStream (namesResult : Except GoError (List String))
    (fetch : String → GetClusterResult) : List GetClusterResult :=
  match namesResult with
  | .error _ => []
  | .ok names => names.map fetch

/-- `GetClustersSync` composed with the stream `GetClusters` produces. -/
def GetClustersSyncOf (namesResult : Except GoError (List String))
    (fetch : String → GetClusterResult) : Except GoError (List (Option Cluster)) :=
  GetClustersSync (getClustersStream namesResult fetch)

/-! ## Theorems -/

/-- C5: for every raw status payload, `newCluster` produces a `Cluster`
whose `NodeState.GossipStates` has one entry per source node of the
payload, and, pairing source nodes with their translated gossip states in
order: the translated datacenter keys are exactly the payload's datacenter
keys, within each datacenter the rack keys are exactly the payload's rack
keys, and within each rack the endpoints are the payload's endpoints,
translated field-for-field in the payload's per-rack order.  The translator
is a total function with no failure path. -/
theorem newCluster_topology (state : clusterStatus) :
    (newCluster state).nodeState.gossipStates.length
      = state.nodeStatus.endpointStates.length
  ∧ List.Forall₂ (fun (src : gossipStatus) (gs : GossipState) =>
      gs.sourceNode = src.sourceNode
    ∧ gs.dataCenters.map Prod.fst = src.endpoints.map Prod.fst
    ∧ List.Forall₂ (fun (dcSrc : String × List (String × List endpointStatus))
          (dcOut : String × DataCenterState) =>
          dcOut.2.racks.map Prod.fst = dcSrc.2.map Prod.fst
        ∧ List.Forall₂ (fun rackSrc rackOut =>
              (rackOut : String × RackState).2.endpoints
                = (rackSrc : String × List endpointStatus).2.map newEndpointState)
            dcSrc.2 dcOut.2.racks)
        src.endpoints gs.dataCenters)
    state.nodeStatus.endpointStates (newCluster state).nodeState.gossipStates := by
  constructor
  · simp [newCluster]
  · show List.Forall₂ _ state.nodeStatus.endpointStates
      (state.nodeStatus.endpointStates.map _)
    rw [List.forall₂_map_right_iff, List.forall₂_same]
    intro gs _
    refine ⟨rfl, by simp, ?_⟩
    show List.Forall₂ _ gs.endpoints (gs.endpoints.map _)
    rw [List.forall₂_map_right_iff, List.forall₂_same]
    intro dcEntry _
    refine ⟨by simp, ?_⟩
    show List.Forall₂ _ dcEntry.2 (dcEntry.2.map _)
    rw [List.forall₂_map_right_iff, List.forall₂_same]
    intro rackEntry _
    rfl

/-- The `GetClusterResult` value built at line 115 from `GetCluster`'s
return pair. -/
def mkGetClusterResult (p : Option Cluster × Option GoError) : GetClusterResult :=
  { cluster := p.1, error := p.2 }

/-- C10: every `GetClusterResult` built from a `GetCluster` return pair
satisfies the tagged-union invariant — either the cluster is present and
the error absent (success) or the cluster absent and the error present
(failure); never both, never neither. -/
theorem getClusterResult_tagged_union (ctx : Context) (name : String)
    (env : GetClusterEnv) :
    ((mkGetClusterResult (GetCluster ctx name env)).cluster.isSome = true
      ∧ (mkGetClusterResult (GetCluster ctx name env)).error = none)
  ∨ ((mkGetClusterResult (GetCluster ctx name env)).cluster = none
      ∧ (mkGetClusterResult (GetCluster ctx name env)).error.isSome = true) := by
  unfold mkGetClusterResult GetCluster
  rcases env with ⟨reqErr, httpResult, decodeStatus⟩
  cases reqErr with
  | some e => simp
  | none =>
    cases h : clientDo ctx httpResult (some decodeStatus) with
    | error e => simp
    | ok p =>
      rcases p with ⟨resp, v⟩
      cases v <;> simp

/-- C7: when the transport call fails and the caller's cancellation signal
has already fired, both `Client.do` and `Client.AddCluster` report the
signal's own reason (`ctx.Err()`) instead of the generic transport error
produced by the same event. -/
theorem cancellation_priority {α : Type} (ctx : Context) (e : GoError)
    (decode : Option (Except GoError α)) (cluster seed : String)
    (hf : ctx.doneFired = true) :
    clientDo ctx (.error e) decode = .error ctx.err
  ∧ (AddCluster ctx cluster seed none (.error e)).2 = some ctx.err := by
  constructor
  · simp [clientDo, hf]
  · simp [AddCluster, hf]

/-- Witness for C7 at a concrete fired context and transport error. -/
theorem cancellation_priority_witness :
    clientDo (α := Unit) ⟨true, .ctxCanceled "context canceled"⟩
        (.error (.transport "connection reset")) none
      = .error (.ctxCanceled "context canceled")
  ∧ (AddCluster ⟨true, .ctxCanceled "context canceled"⟩ "cluster-1" "seed-1" none
        (.error (.transport "connection reset"))).2
      = some (.ctxCanceled "context canceled") :=
  cancellation_priority ⟨true, .ctxCanceled "context canceled"⟩
    (.transport "connection reset") none "cluster-1" "seed-1" rfl

/-- C9: `AddCluster` with an empty seed string is not rejected by any
client-side validation — the PUT request is still issued, with
`seedHost=` carrying the empty value, and the returned result is exactly
the one any other seed value would produce for the same transport
outcome. -/
theorem addCluster_empty_seed (ctx : Context) (cluster seed : String)
    (httpResult : Except GoError HttpResponse) :
    (AddCluster ctx cluster "" none httpResult).1
      = some (addClusterRequest cluster "")
  ∧ (addClusterRequest cluster "").method = "PUT"
  ∧ (addClusterRequest cluster "").query = [("seedHost", "")]
  ∧ (AddCluster ctx cluster "" none httpResult).2
      = (AddCluster ctx cluster seed none httpResult).2 :=
  ⟨rfl, rfl, rfl, rfl⟩

/-- C8 counterexample: `AddCluster` is a single-resource operation, yet on a
transport failure (context not cancelled) it returns the lowest-level error
itself, with no wrapping and no operation context — refuting the claim that
every single-resource operation wraps its failures. -/
theorem addCluster_unwrapped_counterexample :
    (AddCluster ⟨false, .ctxCanceled "context canceled"⟩ "cluster-1" "seed-1" none
        (.error (.transport "connection refused"))).2
      = some (.transport "connection refused")
  ∧ GoError.isWrapped (.transport "connection refused") = false :=
  ⟨rfl, rfl⟩

/-- C8 amended: `GetClusterNames`, `GetCluster` and `DeleteCluster` wrap
every failure of the underlying `Client.do` call (transport, cancellation,
or decode) with operation context identifying the operation and, where one
exists, the resource name; `AddCluster` alone returns the lowest-level
failure unwrapped. -/
theorem singleResource_error_wrapping (ctx : Context) (name cluster seed : String)
    (e : GoError) (dN : Except GoError (List String))
    (dS : Except GoError clusterStatus) (resp : HttpResponse) (em : String) :
    GetClusterNames ctx none (.error e) dN
      = .error (.wrap "failed to get cluster names"
          (if ctx.doneFired then ctx.err else e))
  ∧ GetClusterNames ctx none (.ok resp) (.error (.decode em))
      = .error (.wrap "failed to get cluster names" (.decode em))
  ∧ (GetCluster ctx name ⟨none, .error e, dS⟩).2
      = some (.wrap ("failed to get cluster (" ++ name ++ ")")
          (if ctx.doneFired then ctx.err else e))
  ∧ (GetCluster ctx name ⟨none, .ok resp, .error (.decode em)⟩).2
      = some (.wrap ("failed to get cluster (" ++ name ++ ")") (.decode em))
  ∧ DeleteCluster ctx cluster none (.error e)
      = some (.wrap ("failed to delete cluster (" ++ cluster ++ ")")
          (if ctx.doneFired then ctx.err else e))
  ∧ (AddCluster ctx cluster seed none (.error e)).2
      = some (if ctx.doneFired then ctx.err else e) :=
  ⟨rfl, rfl, rfl, rfl, rfl, rfl⟩

/-- When every result of the stream so far succeeds, the loop of
`GetClustersSync` accumulates every `result.Cluster` in stream order. -/
theorem syncLoop_all_ok (stream : List GetClusterResult)
    (acc : List (Option Cluster)) (h : ∀ x ∈ stream, x.error = none) :
    syncLoop stream acc = .ok (acc ++ stream.map fun r => r.cluster) := by
  induction stream generalizing acc with
  | nil => simp [syncLoop]
  | cons r rest ih =>
    have hr : r.error = none := h r (by simp)
    rw [syncLoop, hr, ih _ fun x hx => h x (by simp [hx])]
    simp

/-- The loop of `GetClustersSync` returns the first error it observes,
discarding the accumulator. -/
theorem syncLoop_first_error (pre post : List GetClusterResult)
    (r : GetClusterResult) (e : GoError) (acc : List (Option Cluster))
    (hpre : ∀ x ∈ pre, x.error = none) (hr : r.error = some e) :
    syncLoop (pre ++ r :: post) acc = .error e := by
  induction pre generalizing acc with
  | nil => simp [syncLoop, hr]
  | cons p rest ih =>
    have hp : p.error = none := hpre p (by simp)
    rw [List.cons_append, syncLoop, hp]
    exact ih _ fun x hx => hpre x (by simp [hx])

/-- C2: `GetClustersSync` never surfaces a partial list.  If every result
of the stream succeeds it returns all fetched clusters, in the stream's
completion order; as soon as any observed result carries a failure it
returns exactly that failure with no clusters, discarding everything
accumulated before it and everything after it. -/
theorem getClustersSync_all_or_nothing (stream : List GetClusterResult) :
    ((∀ x ∈ stream, x.error = none) →
      GetClustersSync stream = .ok (stream.map fun r => r.cluster))
  ∧ (∀ (pre post : List GetClusterResult) (r : GetClusterResult) (e : GoError),
      stream = pre ++ r :: post → (∀ x ∈ pre, x.error = none) →
      r.error = some e → GetClustersSync stream = .error e) := by
  constructor
  · intro h
    rw [GetClustersSync, syncLoop_all_ok stream [] h]
    simp
  · intro pre post r e hs hpre hr
    rw [GetClustersSync, hs]
    exact syncLoop_first_error pre post r e [] hpre hr

/-- Witness for C2: a fully successful two-element stream returns both
clusters in order; a stream whose second result fails returns exactly that
failure. -/
theorem getClustersSync_all_or_nothing_witness :
    GetClustersSync [⟨some (newCluster emptyClusterStatus), none⟩,
        ⟨some (newCluster emptyClusterStatus), none⟩]
      = .ok [some (newCluster emptyClusterStatus),
          some (newCluster emptyClusterStatus)]
  ∧ GetClustersSync [⟨some (newCluster emptyClusterStatus), none⟩,
        ⟨none, some (.transport "connection refused")⟩,
        ⟨some (newCluster emptyClusterStatus), none⟩]
      = .error (.transport "connection refused") := by
  constructor
  · exact (getClustersSync_all_or_nothing _).1
      (by intro x hx; simp only [List.mem_cons, List.not_mem_nil, or_false] at hx
          rcases hx with rfl | rfl <;> rfl)
  · exact (getClustersSync_all_or_nothing _).2
      [⟨some (newCluster emptyClusterStatus), none⟩]
      [⟨some (newCluster emptyClusterStatus), none⟩]
      ⟨none, some (.transport "connection refused")⟩
      (.transport "connection refused") rfl
      (by intro x hx; simp only [List.mem_singleton] at hx; subst hx; rfl) rfl

/-- C4 (defect witness): when the name-listing step fails,
`GetClustersSync` consumes the empty closed stream `GetClusters` produced
and returns an empty successful list — the listing failure is never
surfaced to the synchronous caller. -/
theorem getClustersSync_swallows_listing_failure :
    GetClustersSyncOf
        (.error (.wrap "failed to get cluster names" (.transport "connection refused")))
        (fun _ => ⟨none, none⟩)
      = .ok [] := rfl

/-- C6: after a name-listing failure the stream starts closed with no
fetches, and no scheduler step is ever enabled, so every reachable state
still has the stream closed with nothing delivered — in particular the
listing failure itself is never delivered as an element. -/
theorem getClusters_listing_failure_empty_stream (cap : Nat) (e : GoError)
    (steps : List Step) (s : AggState)
    (h : run cap steps (initStateOf (.error e)) = some s) :
    s.consumed = 0 ∧ s.closed = true ∧ s.phases = [] := by
  cases steps with
  | nil =>
    simp only [run, Option.some.injEq] at h
    subst h
    exact ⟨rfl, rfl, rfl⟩
  | cons st rest =>
    exfalso
    cases st <;> simp [run, applyStep, initStateOf] at h

/-- Witness for C6: the empty schedule from a failed listing. -/
theorem getClusters_listing_failure_empty_stream_witness :
    (initStateOf (.error (.transport "connection refused"))).consumed = 0
  ∧ (initStateOf (.error (.transport "connection refused"))).closed = true
  ∧ (initStateOf (.error (.transport "connection refused"))).phases = [] :=
  getClusters_listing_failure_empty_stream 5 (.transport "connection refused")
    [] _ rfl


/-- Replacing the element at position `i` changes `countP` by the
difference between the predicate's value at the new and the old element. -/
theorem countP_set_index {α : Type} (p : α → Bool) (l : List α) (i : Nat)
    (a v : α) (h : l[i]? = some a) :
    (l.set i v).countP p + (if p a then 1 else 0)
      = l.countP p + (if p v then 1 else 0) := by
  induction l generalizing i with
  | nil => simp at h
  | cons x xs ih =>
    cases i with
    | zero =>
      simp only [List.getElem?_cons_zero, Option.some.injEq] at h
      subst h
      simp only [List.set, List.countP_cons]
      omega
    | succ n =>
      simp only [List.getElem?_cons_succ] at h
      have hx := ih n h
      simp only [List.set, List.countP_cons]
      omega

/-- An element found by index is a member of the list. -/
theorem mem_of_index {α : Type} {l : List α} {i : Nat} {a : α}
    (h : l[i]? = some a) : a ∈ l := by
  obtain ⟨hi, rfl⟩ := List.getElem?_eq_some.mp h
  exact List.getElem_mem hi

/-- Invariant of a `GetClusters` call over `n` names: the phase list keeps
one entry per name; results received plus results buffered equal results
sent; and the channel is closed only once every fetch goroutine has sent
its result. -/
def AggInv (n : Nat) (s : AggState) : Prop :=
  s.phases.length = n
  ∧ s.consumed + s.buffer = countDone s.phases
  ∧ (s.closed = true → ∀ p ∈ s.phases, p = FetchPhase.done)

theorem aggInv_init (names : List String) :
    AggInv names.length (initStateOf (.ok names)) := by
  refine ⟨by simp [initStateOf], ?_, ?_⟩
  · have h0 : countDone (List.replicate names.length FetchPhase.notStarted) = 0 := by
      simp only [countDone]
      apply List.countP_eq_zero.mpr
      intro a ha
      rw [List.eq_of_mem_replicate ha]
      decide
    simp [initStateOf, h0]
  · intro hcl
    simp [initStateOf] at hcl

theorem aggInv_step (cap n : Nat) (s s' : AggState) (st : Step)
    (hs : AggInv n s) (h : applyStep cap s st = some s') : AggInv n s' := by
  obtain ⟨hlen, hcount, hclosed⟩ := hs
  cases st with
  | start i =>
    cases hg : s.phases[i]? with
    | none => simp [applyStep, hg] at h
    | some ph =>
      cases ph with
      | fetching => simp [applyStep, hg] at h
      | sending => simp [applyStep, hg] at h
      | done => simp [applyStep, hg] at h
      | notStarted =>
        simp only [applyStep, hg, Option.some.injEq] at h
        subst h
        have hset := countP_set_index (· == FetchPhase.done) s.phases i
          .notStarted .fetching hg
        simp only [show (FetchPhase.notStarted == FetchPhase.done) = false by decide,
          show (FetchPhase.fetching == FetchPhase.done) = false by decide] at hset
        simp at hset
        refine ⟨by simp [hlen], ?_, ?_⟩
        · simp only [countDone] at hcount ⊢
          omega
        · intro hcl
          exact absurd (hclosed hcl FetchPhase.notStarted (mem_of_index hg)) (by decide)
  | finishFetch i =>
    cases hg : s.phases[i]? with
    | none => simp [applyStep, hg] at h
    | some ph =>
      cases ph with
      | notStarted => simp [applyStep, hg] at h
      | sending => simp [applyStep, hg] at h
      | done => simp [applyStep, hg] at h
      | fetching =>
        simp only [applyStep, hg, Option.some.injEq] at h
        subst h
        have hset := countP_set_index (· == FetchPhase.done) s.phases i
          .fetching .sending hg
        simp only [show (FetchPhase.fetching == FetchPhase.done) = false by decide,
          show (FetchPhase.sending == FetchPhase.done) = false by decide] at hset
        simp at hset
        refine ⟨by simp [hlen], ?_, ?_⟩
        · simp only [countDone] at hcount ⊢
          omega
        · intro hcl
          exact absurd (hclosed hcl FetchPhase.fetching (mem_of_index hg)) (by decide)
  | send i =>
    cases hg : s.phases[i]? with
    | none => simp [applyStep, hg] at h
    | some ph =>
      cases ph with
      | notStarted => simp [applyStep, hg] at h
      | fetching => simp [applyStep, hg] at h
      | done => simp [applyStep, hg] at h
      | sending =>
        by_cases hb : s.buffer < cap
        · simp only [applyStep, hg, hb, if_true, Option.some.injEq] at h
          subst h
          have hset := countP_set_index (· == FetchPhase.done) s.phases i
            .sending .done hg
          simp only [show (FetchPhase.sending == FetchPhase.done) = false by decide,
            show (FetchPhase.done == FetchPhase.done) = true by decide] at hset
          simp at hset
          refine ⟨by simp [hlen], ?_, ?_⟩
          · simp only [countDone] at hcount ⊢
            omega
          · intro hcl
            exact absurd (hclosed hcl FetchPhase.sending (mem_of_index hg)) (by decide)
        · simp [applyStep, hg, hb] at h
  | recv =>
    by_cases hb : 0 < s.buffer
    · simp only [applyStep, hb, if_true, Option.some.injEq] at h
      subst h
      refine ⟨hlen, ?_, hclosed⟩
      simp only [countDone] at hcount ⊢
      omega
    · simp [applyStep, hb] at h
  | close =>
    by_cases hc : s.closed
    · simp [applyStep, hc] at h
    · by_cases ha : s.phases.all (· == FetchPhase.done)
      · simp only [applyStep, hc, ha, if_true, Bool.false_eq_true, if_false,
          Option.some.injEq] at h
        subst h
        refine ⟨hlen, hcount, ?_⟩
        intro _ p hp
        exact eq_of_beq (List.all_eq_true.mp ha p hp)
      · simp [applyStep, hc, ha] at h

theorem aggInv_run (cap n : Nat) (steps : List Step) (s0 s : AggState)
    (h0 : AggInv n s0) (h : run cap steps s0 = some s) : AggInv n s := by
  induction steps generalizing s0 with
  | nil =>
    simp only [run, Option.some.injEq] at h
    subst h
    exact h0
  | cons st rest ih =>
    simp only [run, Option.bind_eq_some] at h
    obtain ⟨s1, h1, h2⟩ := h
    exact ih s1 (aggInv_step cap n s0 s1 st h0 h1) h2

/-- C1: along every schedule of a `GetClusters` call whose name listing
returned `names`, once the output channel has been closed every one of the
`names.length` launched fetches has completed and sent its result, the
phase list still has one entry per name, and once the consumer has drained
the buffer it has received exactly `names.length` results — no result is
ever dropped. -/
theorem getClusters_stream_delivers_all (cap : Nat) (names : List String)
    (steps : List Step) (s : AggState)
    (h : run cap steps (initStateOf (.ok names)) = some s)
    (hclosed : s.closed = true) :
    s.phases.length = names.length
  ∧ (∀ p ∈ s.phases, p = FetchPhase.done)
  ∧ (s.buffer = 0 → s.consumed = names.length) := by
  obtain ⟨hlen, hcount, hcl⟩ :=
    aggInv_run cap names.length steps _ s (aggInv_init names) h
  have hdone := hcl hclosed
  refine ⟨hlen, hdone, ?_⟩
  intro hb
  have hfull : countDone s.phases = s.phases.length := by
    simp only [countDone]
    apply List.countP_eq_length.mpr
    intro a ha
    rw [hdone a ha]
    decide
  omega

/-- A complete two-name schedule: both fetches start, finish, send; the
consumer receives both results; the channel closes. -/
def demoSteps : List Step :=
  [.start 0, .start 1, .finishFetch 0, .send 0, .finishFetch 1, .send 1,
    .recv, .recv, .close]

def demoFinalState : AggState :=
  { phases := [.done, .done], buffer := 0, consumed := 2, closed := true }

/-- Witness for C1 on a concrete two-name schedule. -/
theorem getClusters_stream_delivers_all_witness :
    demoFinalState.phases.length = 2
  ∧ (∀ p ∈ demoFinalState.phases, p = FetchPhase.done)
  ∧ (demoFinalState.buffer = 0 → demoFinalState.consumed = 2) :=
  getClusters_stream_delivers_all 5 ["cluster-a", "cluster-b"] demoSteps
    demoFinalState (by decide) rfl

/-- A six-name schedule that starts all six fetches before any completes. -/
def overloadSteps : List Step :=
  [.start 0, .start 1, .start 2, .start 3, .start 4, .start 5]

def overloadNames : List String :=
  ["c0", "c1", "c2", "c3", "c4", "c5"]

def overloadState : AggState :=
  { phases := [.fetching, .fetching, .fetching, .fetching, .fetching, .fetching]
    buffer := 0, consumed := 0, closed := false }

/-- C3 (defect witness): with 8 CPUs the width computed at line 97 is 5,
yet a `GetClusters` call over six names reaches a state with all six
fetches simultaneously in flight — nothing in the code gates goroutine
creation or the fetches themselves; only the result channel's buffer is
bounded by the width. -/
theorem getClusters_width_unbounded :
    concurrencyWidth 8 = 5
  ∧ run (concurrencyWidth 8) overloadSteps (initStateOf (.ok overloadNames))
      = some overloadState
  ∧ countInFlight overloadState = 6 := by
  refine ⟨rfl, by decide, by decide⟩
